import Mathlib

/-!
Verification of the analytics core of the Negative Space Imaging project:
metrics collection/aggregation (`analytics/core/metrics.py`), the event bus
(`analytics/core/events.py`), the windowed stream processor
(`analytics/processors/streaming.py`) and the anomaly detectors
(`analytics/algorithms/anomaly_detection.py`).

The Python code is embedded shallowly: pure numeric code becomes functions
over `ℚ` (or `ℝ` where `math.sqrt` is involved), timestamps become integer
seconds since an epoch, `dict`s keyed by window id become insertion-ordered
association lists, the repository and subscriber callbacks become explicit
functions returning `Except`, and the stateful collector/bus become explicit
state-passing functions.
-/

namespace NegSpace

/-! ## MetricsAggregator (`core/metrics.py`)

`_compute_percentile(sorted_values, percentile)`:
`index = int((percentile / 100.0) * len(sorted_values))` and then
`sorted_values[min(index, len(sorted_values) - 1)]`.  The index is computed
in IEEE-754 binary64: `percentile / 100.0` is a correctly rounded float
division of exactly representable operands, and the multiplication by
`len(...)` (an int, exactly representable) rounds again.  The rounding of a
rational to binary64 (round to nearest, ties to even) is modelled below by
`toFloat`; overflow and subnormals are outside the range of every value
this computation can produce and are not modelled.  `int()` on the
non-negative product is a floor.  Out-of-range indexing (only possible on
an empty list, where Python would raise `IndexError`) is modelled with
default value 0. -/

/-- Round a rational to an integer, to nearest with ties to even. -/
def round_even (x : ℚ) : ℤ :=
  let n := ⌊x⌋
  let f := x - n
  if f < 1 / 2 then n
  else if 1 / 2 < f then n + 1
  else if n % 2 = 0 then n else n + 1

/-- Binary64 rounding of a positive rational: scale into `[2^52, 2^53)`
using the binade exponent `Int.log 2 q`, round the 53-bit significand to
nearest-even, and scale back.  (A carry to `2^53` lands exactly on the next
binade's boundary, which this formula also returns correctly.) -/
def toFloatPos (q : ℚ) : ℚ :=
  (round_even (q / 2 ^ (Int.log 2 q - 52)) : ℚ) * 2 ^ (Int.log 2 q - 52)

/-- Binary64 rounding (round to nearest, ties to even) of a rational. -/
def toFloat (q : ℚ) : ℚ :=
  if q = 0 then 0 else if 0 < q then toFloatPos q else - toFloatPos (-q)

/-- The index `int((percentile / 100.0) * n)` as the float program computes
it: round the division, round the product, truncate (= floor, as the
product is non-negative). -/
def float_rank_index (percentile n : ℕ) : ℕ :=
  (⌊toFloat (toFloat ((percentile : ℚ) / 100) * (n : ℚ))⌋).toNat

def compute_percentile (sorted_values : List ℚ) (percentile : ℕ) : ℚ :=
  sorted_values.getD
    (min (float_rank_index percentile sorted_values.length)
      (sorted_values.length - 1)) 0

/-- The index the spec prescribes: nearest-rank
`floor(percentile/100 * n)` clamped to `n - 1`, written with exact natural
division. -/
def nearest_rank_index (percentile n : ℕ) : ℕ :=
  min (percentile * n / 100) (n - 1)

/-! ## MetricsCollector (`core/metrics.py`)

The collector's state: the buffer of pending metrics and its counters.  The
repository's `save_metrics_batch` is a caller-supplied function which either
returns the saved count or raises (`Except.error`).  The metric payload type
is abstract. -/

structure CollectorState (M : Type) where
  buffer : List M
  batches_flushed : ℕ
  flush_errors : ℕ
  metrics_collected : ℕ
  deriving Repr, DecidableEq

/-- `MetricsCollector._flush_buffer`: if the buffer is empty return 0;
otherwise hand the head slice (up to `batch_size`) to
`repository.save_metrics_batch`.  On success the slice is dropped from the
front and `_batches_flushed` incremented; if the save raises, the
`except` branch increments `_flush_errors` and returns 0 — the buffer
truncation line is never reached. -/
def flush_buffer {M : Type} (save : List M → Except Unit ℕ) (batch_size : ℕ)
    (st : CollectorState M) : ℕ × CollectorState M :=
  if st.buffer.isEmpty then (0, st)
  else
    match save (st.buffer.take batch_size) with
    | Except.ok count =>
        (count, { st with
                    buffer := st.buffer.drop batch_size,
                    batches_flushed := st.batches_flushed + 1 })
    | Except.error _ =>
        (0, { st with flush_errors := st.flush_errors + 1 })

/-- The `while len(self._buffer) >= self.batch_size: await self._flush_buffer()`
loop of `MetricsCollector.collect_batch`, made total with explicit fuel:
`none` means the loop was still running when the fuel ran out. -/
def collect_batch_loop {M : Type} (save : List M → Except Unit ℕ)
    (batch_size : ℕ) : ℕ → CollectorState M → Option (CollectorState M)
  | 0, _ => none
  | fuel + 1, st =>
      if batch_size ≤ st.buffer.length then
        collect_batch_loop save batch_size fuel (flush_buffer save batch_size st).2
      else
        some st

/-- `MetricsCollector.collect_batch`: extend the buffer, bump the collected
counter, then run the flush loop. -/
def collect_batch {M : Type} (save : List M → Except Unit ℕ) (batch_size : ℕ)
    (fuel : ℕ) (st : CollectorState M) (metrics : List M) :
    Option (CollectorState M) :=
  collect_batch_loop save batch_size fuel
    { st with
        buffer := st.buffer ++ metrics,
        metrics_collected := st.metrics_collected + metrics.length }

/-- A repository whose `save_metrics_batch` raises on every call. -/
def failing_save {M : Type} : List M → Except Unit ℕ := fun _ => Except.error ()

end NegSpace

namespace NegSpace

/-! ## Theorems: MetricsAggregator percentile (claim C6)

Evaluation machinery for the binary64 model, then the claim: the float
index `int((p/100.0)*n)` does not always equal the exact nearest-rank
`floor(p*n/100)` — at `p = 29`, `n = 100` the two roundings leave the
product at `28.999999999999996…`, so the program indexes at 28 where the
claim's formula says 29. -/

/-- `Int.log 2` is characterised by the binade bounds. -/
theorem int_log2_eq (q : ℚ) (e : ℤ) (h0 : 0 < q) (hlo : 2 ^ e ≤ q)
    (hhi : q < 2 ^ (e + 1)) : Int.log 2 q = e := by
  have h1 : ((2 : ℕ) : ℚ) ^ (Int.log 2 q) ≤ q :=
    Int.zpow_log_le_self (by norm_num) h0
  have h2 : q < ((2 : ℕ) : ℚ) ^ (Int.log 2 q + 1) :=
    Int.lt_zpow_succ_log_self (by norm_num) q
  push_cast at h1 h2
  by_contra hne
  rcases lt_or_gt_of_ne hne with hlt | hgt
  · have hle : (2 : ℚ) ^ (Int.log 2 q + 1) ≤ 2 ^ e :=
      zpow_le_zpow_right₀ (by norm_num) (by omega)
    linarith
  · have hle : (2 : ℚ) ^ (e + 1) ≤ 2 ^ (Int.log 2 q) :=
      zpow_le_zpow_right₀ (by norm_num) (by omega)
    linarith

theorem round_even_of_frac_lt (x : ℚ) (n : ℤ) (h1 : (n : ℚ) ≤ x)
    (h2 : x < (n : ℚ) + 1 / 2) : round_even x = n := by
  have hfl : ⌊x⌋ = n := Int.floor_eq_iff.mpr ⟨h1, by linarith⟩
  unfold round_even
  rw [hfl, if_pos (by linarith)]

theorem round_even_of_half_lt (x : ℚ) (n : ℤ) (h1 : (n : ℚ) + 1 / 2 < x)
    (h2 : x < (n : ℚ) + 1) : round_even x = n + 1 := by
  have hfl : ⌊x⌋ = n := Int.floor_eq_iff.mpr ⟨by linarith, by linarith⟩
  unfold round_even
  rw [hfl, if_neg (by linarith), if_pos (by linarith)]

/-- Evaluate `toFloat` at a positive rational from its binade exponent and
rounded significand. -/
theorem toFloat_eval (q : ℚ) (e m : ℤ) (h0 : 0 < q) (hlo : 2 ^ e ≤ q)
    (hhi : q < 2 ^ (e + 1)) (hm : round_even (q / 2 ^ (e - 52)) = m) :
    toFloat q = m * 2 ^ (e - 52) := by
  unfold toFloat toFloatPos
  rw [if_neg (ne_of_gt h0), if_pos h0, int_log2_eq q e h0 hlo hhi, hm]

/-- `float(29) / float(100)` rounds down to `0.28999999999999998…`. -/
theorem toFloat_29_div_100 :
    toFloat ((29 : ℚ) / 100) = 5224175567749775 / 2 ^ 54 := by
  have h := toFloat_eval ((29 : ℚ) / 100) (-2) 5224175567749775 (by norm_num)
    (by norm_num) (by norm_num)
    (round_even_of_frac_lt _ _ (by norm_num) (by norm_num))
  rw [h]
  norm_num

/-- `0.29 * 100` rounds down again, to `28.999999999999996…`. -/
theorem toFloat_29_product :
    toFloat ((5224175567749775 / 2 ^ 54 : ℚ) * 100) =
      8162774324609023 / 2 ^ 48 := by
  have h := toFloat_eval ((5224175567749775 / 2 ^ 54 : ℚ) * 100) 4
    8162774324609023 (by norm_num) (by norm_num) (by norm_num)
    (round_even_of_frac_lt _ _ (by norm_num) (by norm_num))
  rw [h]
  norm_num

/-- The float program's index at `p = 29`, `n = 100` is 28. -/
theorem float_rank_index_29_100 : float_rank_index 29 100 = 28 := by
  unfold float_rank_index
  push_cast
  rw [toFloat_29_div_100, toFloat_29_product]
  have hfl : ⌊(8162774324609023 / 2 ^ 48 : ℚ)⌋ = (28 : ℤ) := by
    rw [Int.floor_eq_iff]
    constructor <;> norm_num
  rw [hfl]
  rfl

/-- `float(50) / float(100) = 0.5` exactly and `0.5 * 10 = 5.0` exactly. -/
theorem float_rank_index_50_10 : float_rank_index 50 10 = 5 := by
  have h1 : toFloat ((50 : ℚ) / 100) = 1 / 2 := by
    have h := toFloat_eval ((50 : ℚ) / 100) (-1) 4503599627370496 (by norm_num)
      (by norm_num) (by norm_num)
      (round_even_of_frac_lt _ _ (by norm_num) (by norm_num))
    rw [h]
    norm_num
  have h2 : toFloat ((1 / 2 : ℚ) * 10) = 5 := by
    have h := toFloat_eval ((1 / 2 : ℚ) * 10) 2 5629499534213120 (by norm_num)
      (by norm_num) (by norm_num)
      (round_even_of_frac_lt _ _ (by norm_num) (by norm_num))
    rw [h]
    norm_num
  unfold float_rank_index
  push_cast
  rw [h1, h2]
  have hfl : ⌊(5 : ℚ)⌋ = (5 : ℤ) := by
    rw [Int.floor_eq_iff]
    constructor <;> norm_num
  rw [hfl]
  rfl

/-- `float(95) / float(100)` rounds down, and the product with 10 rounds up
to exactly `9.5`, whose truncation is 9. -/
theorem float_rank_index_95_10 : float_rank_index 95 10 = 9 := by
  have h1 : toFloat ((95 : ℚ) / 100) = 8556839292003942 / 2 ^ 53 := by
    have h := toFloat_eval ((95 : ℚ) / 100) (-1) 8556839292003942 (by norm_num)
      (by norm_num) (by norm_num)
      (round_even_of_frac_lt _ _ (by norm_num) (by norm_num))
    rw [h]
    norm_num
  have h2 : toFloat ((8556839292003942 / 2 ^ 53 : ℚ) * 10) = 19 / 2 := by
    have hre : round_even (((8556839292003942 / 2 ^ 53 : ℚ) * 10) / 2 ^ ((3 : ℤ) - 52)) =
        5348024557502464 := by
      have h := round_even_of_half_lt
        (((8556839292003942 / 2 ^ 53 : ℚ) * 10) / 2 ^ ((3 : ℤ) - 52))
        5348024557502463 (by norm_num) (by norm_num)
      rw [h]
      norm_num
    have h := toFloat_eval ((8556839292003942 / 2 ^ 53 : ℚ) * 10) 3
      5348024557502464 (by norm_num) (by norm_num) (by norm_num) hre
    rw [h]
    norm_num
  unfold float_rank_index
  push_cast
  rw [h1, h2]
  have hfl : ⌊(19 / 2 : ℚ)⌋ = (9 : ℤ) := by
    rw [Int.floor_eq_iff]
    constructor <;> norm_num
  rw [hfl]
  rfl

/-- Counterexample to claim C6 as stated: on the sorted 100-element list
`[0, 1, …, 99]` with percentile 29, the program's float index
`int((29/100.0)*100)` is 28 (two roundings leave the product just below
29), so `_compute_percentile` returns 28, while the claim's exact
nearest-rank formula `min(floor(29·100/100), 99) = 29` selects 29. -/
theorem compute_percentile_float_divergence :
    compute_percentile ((List.range 100).map (Nat.cast : ℕ → ℚ)) 29 = 28 ∧
      ((List.range 100).map (Nat.cast : ℕ → ℚ)).getD
        (nearest_rank_index 29
          ((List.range 100).map (Nat.cast : ℕ → ℚ)).length) 0 = 29 ∧
      (28 : ℚ) ≠ 29 := by
  have hlen : ((List.range 100).map (Nat.cast : ℕ → ℚ)).length = 100 := by
    simp
  refine ⟨?_, ?_, by norm_num⟩
  · unfold compute_percentile
    rw [hlen, float_rank_index_29_100]
    rw [List.getD_eq_getElem _ 0 (by rw [hlen]; norm_num)]
    simp
  · rw [hlen]
    unfold nearest_rank_index
    rw [List.getD_eq_getElem _ 0 (by rw [hlen]; norm_num)]
    simp

/-- Claim C6 amended: the aggregator's percentile is the element at index
`min(I(p, n), n - 1)` where `I(p, n) = int((p/100.0) * n)` is computed in
binary64 (in particular the result is always an element of a non-empty
list); `I` agrees with the exact nearest rank `floor(p*n/100)` at the
spec's example points — `I(50, 10) = 5` and `I(95, 10) = 9`, so p50 = 60
and p95 = 100 on `[10, …, 100]` — but not at every percentile:
`I(29, 100) = 28` while `floor(29·100/100) = 29`. -/
theorem compute_percentile_float_nearest_rank :
    (∀ (vs : List ℚ) (p : ℕ), vs ≠ [] →
        compute_percentile vs p =
            vs.getD
              (min (float_rank_index p vs.length) (vs.length - 1)) 0 ∧
          compute_percentile vs p ∈ vs) ∧
      float_rank_index 50 10 = nearest_rank_index 50 10 ∧
      float_rank_index 95 10 = nearest_rank_index 95 10 ∧
      compute_percentile [10, 20, 30, 40, 50, 60, 70, 80, 90, 100] 50 = 60 ∧
      compute_percentile [10, 20, 30, 40, 50, 60, 70, 80, 90, 100] 95 = 100 ∧
      float_rank_index 29 100 = 28 ∧ nearest_rank_index 29 100 = 29 := by
  have hdemo50 :
      compute_percentile [10, 20, 30, 40, 50, 60, 70, 80, 90, 100] 50 = 60 := by
    unfold compute_percentile
    norm_num [float_rank_index_50_10]
  have hdemo95 :
      compute_percentile [10, 20, 30, 40, 50, 60, 70, 80, 90, 100] 95 = 100 := by
    unfold compute_percentile
    norm_num [float_rank_index_95_10]
  refine ⟨?_, ?_, ?_, hdemo50, hdemo95, float_rank_index_29_100, by decide⟩
  · intro vs p hne
    refine ⟨rfl, ?_⟩
    have hpos : 0 < vs.length := List.length_pos.mpr hne
    have hidx : min (float_rank_index p vs.length) (vs.length - 1) <
        vs.length := by omega
    unfold compute_percentile
    rw [List.getD_eq_getElem _ 0 hidx]
    exact List.getElem_mem hidx
  · rw [float_rank_index_50_10]
    decide
  · rw [float_rank_index_95_10]
    decide

/-- Witness for the amended C6 at the spec's example list and p50. -/
theorem compute_percentile_float_nearest_rank_witness :
    compute_percentile [10, 20, 30, 40, 50, 60, 70, 80, 90, 100] 50 =
        ([10, 20, 30, 40, 50, 60, 70, 80, 90, 100] : List ℚ).getD
          (min (float_rank_index 50 10) 9) 0 ∧
      compute_percentile [10, 20, 30, 40, 50, 60, 70, 80, 90, 100] 50 ∈
        ([10, 20, 30, 40, 50, 60, 70, 80, 90, 100] : List ℚ) := by
  have h := compute_percentile_float_nearest_rank.1
    [10, 20, 30, 40, 50, 60, 70, 80, 90, 100] 50 (by decide)
  simpa using h

/-! ## Theorems: MetricsCollector flush failure (claim C3) -/

/-- Counterexample to claim C3 as stated: with `batch_size = 1`, a buffer
holding one metric and a repository whose batch save raises, the flush
attempt leaves the attempted slice in the buffer (it is still `[7]`, not
`[7].drop 1 = []`), while incrementing the error counter.  The claim said
the attempted head slice is removed after a failed flush. -/
theorem flush_failure_keeps_slice :
    (flush_buffer (failing_save (M := ℕ)) 1 ⟨[7], 0, 0, 1⟩).2.buffer = [7] ∧
      (flush_buffer (failing_save (M := ℕ)) 1 ⟨[7], 0, 0, 1⟩).2.flush_errors = 1 ∧
      ([7] : List ℕ) ≠ List.drop 1 [7] := by
  refine ⟨rfl, rfl, ?_⟩
  decide

/-- Claim C3 amended: for every non-empty buffer state whose attempted head
slice makes the repository's batch save raise, the flush attempt increments
the flush-error counter, returns 0, and leaves the buffer (and the other
counters) unchanged — no buffered data is lost and the attempted slice stays
at the front. -/
theorem flush_failure_buffer_unchanged {M : Type}
    (save : List M → Except Unit ℕ) (batch_size : ℕ) (st : CollectorState M)
    (hne : st.buffer ≠ []) (e : Unit)
    (hfail : save (st.buffer.take batch_size) = Except.error e) :
    flush_buffer save batch_size st =
      (0, { st with flush_errors := st.flush_errors + 1 }) := by
  unfold flush_buffer
  rw [if_neg (by simpa [List.isEmpty_iff] using hne), hfail]

/-- Witness for the amended C3 at a concrete state and repository. -/
theorem flush_failure_buffer_unchanged_witness :
    flush_buffer (failing_save (M := ℕ)) 1 ⟨[7], 0, 0, 1⟩ =
      (0, ⟨[7], 0, 1, 1⟩) := by
  have h := flush_failure_buffer_unchanged (failing_save (M := ℕ)) 1
    ⟨[7], 0, 0, 1⟩ (by decide) () rfl
  simpa using h

/-! ## Theorems: collect_batch non-termination (claim C4) -/

/-- Helper: with an always-raising repository, a failed flush leaves the
buffer untouched, so the `while` guard of `collect_batch` stays true. -/
theorem collect_batch_loop_stuck {M : Type} (batch_size : ℕ)
    (hbs : 1 ≤ batch_size) :
    ∀ (fuel : ℕ) (st : CollectorState M),
      batch_size ≤ st.buffer.length →
      collect_batch_loop (failing_save (M := M)) batch_size fuel st = none := by
  intro fuel
  induction fuel with
  | zero => intro st _; rfl
  | succ n ih =>
      intro st hlen
      have hne : ¬ st.buffer.isEmpty := by
        cases hb : st.buffer with
        | nil => simp [hb] at hlen; omega
        | cons a t => simp [hb]
      unfold collect_batch_loop
      rw [if_pos hlen]
      have hflush : flush_buffer (failing_save (M := M)) batch_size st =
          (0, { st with flush_errors := st.flush_errors + 1 }) := by
        unfold flush_buffer failing_save
        rw [if_neg hne]
      rw [hflush]
      exact ih _ (by simpa using hlen)

/-- Claim C4 is violated by the code (`code_bug`): with `batch_size = 1`, a
single-element batch and a repository whose `save_metrics_batch` raises on
every call, the failed flush never shortens the buffer, so the
`while len(buffer) >= batch_size` loop of `collect_batch` never exits — for
every amount of fuel the loop is still running.  The spec promised
termination with a best-effort partial result. -/
theorem collect_batch_nontermination (fuel : ℕ) :
    collect_batch (failing_save (M := ℕ)) 1 fuel ⟨[], 0, 0, 0⟩ [7] = none := by
  unfold collect_batch
  exact collect_batch_loop_stuck 1 le_rfl fuel _ (by decide)

/-! ## EventBus (`core/events.py`)

`Event.validate` requires a non-empty `event_type` and `source` and
dict-typed `payload`/`metadata`; the two dict checks are modelled as boolean
fields since the payload contents never matter to the bus. -/

structure Event where
  event_id : String
  event_type : String
  source : String
  payload_is_dict : Bool := true
  metadata_is_dict : Bool := true
  deriving Repr, DecidableEq

def Event.validate (e : Event) : Bool :=
  !(e.event_type == "") && !(e.source == "") && e.payload_is_dict &&
    e.metadata_is_dict

/-- The bus state: the bounded FIFO queue (an `asyncio.Queue` with
`maxsize = max_queue_size`), the set of seen event ids, and the three
counters. -/
structure BusState where
  max_queue_size : ℕ
  queue : List Event
  seen_event_ids : List String
  published_count : ℕ
  duplicated_count : ℕ
  failed_count : ℕ
  deriving Repr, DecidableEq

def BusState.init (max_queue_size : ℕ) : BusState :=
  ⟨max_queue_size, [], [], 0, 0, 0⟩

/-- `asyncio.Queue.put_nowait` raises `QueueFull` exactly when the queue is
bounded (`maxsize > 0`) and `qsize() >= maxsize`. -/
def BusState.queue_full (st : BusState) : Bool :=
  decide (0 < st.max_queue_size) && decide (st.max_queue_size ≤ st.queue.length)

/-- The four ways `EventBus.publish` can end: enqueued and counted
(returns `True`), rejected as invalid (returns `False`), rejected as a
duplicate (returns `False`), or the `QueueFull` exception re-raised. -/
inductive PublishResult
  | published
  | invalid
  | duplicate
  | queue_full_raised
  deriving Repr, DecidableEq

/-- `EventBus.publish`: validate, then dedup against `_seen_event_ids`, then
add the id to the seen set and try `put_nowait`; a full queue increments the
failure counter and re-raises, leaving the id in the seen set. -/
def publish (st : BusState) (e : Event) : PublishResult × BusState :=
  if ¬ e.validate then
    (PublishResult.invalid, { st with failed_count := st.failed_count + 1 })
  else if e.event_id ∈ st.seen_event_ids then
    (PublishResult.duplicate,
      { st with duplicated_count := st.duplicated_count + 1 })
  else
    let st1 := { st with seen_event_ids := e.event_id :: st.seen_event_ids }
    if st1.queue_full then
      (PublishResult.queue_full_raised,
        { st1 with failed_count := st1.failed_count + 1 })
    else
      (PublishResult.published,
        { st1 with
            queue := st1.queue ++ [e],
            published_count := st1.published_count + 1 })

/-- A subscriber: the events its `handle_event` has completed, plus the
events on which it raises.  `handle_event` either records the event or
raises (`Except.error`). -/
structure Subscriber where
  handled : List Event
  throws_on : Event → Bool

def handle_event (s : Subscriber) (e : Event) : Subscriber × Except Unit Unit :=
  if s.throws_on e then (s, Except.error ())
  else ({ s with handled := s.handled ++ [e] }, Except.ok ())

/-- Subscriptions: per-type lists plus the wildcard (`""`) list, as in
`EventBus._subscribers` / `_all_subscribers`. -/
structure SubscriberMap where
  by_type : List (String × List Subscriber)
  all_subs : List Subscriber

/-- The subscriber resolution of `EventBus.dispatch`:
`self._subscribers.get(event.event_type, []) + self._all_subscribers`. -/
def resolve (m : SubscriberMap) (e : Event) : List Subscriber :=
  ((m.by_type.find? (fun p => p.1 == e.event_type)).map Prod.snd).getD [] ++
    m.all_subs

/-- `EventBus.dispatch`: invoke `handle_event` on every resolved subscriber
and gather the results with `return_exceptions=True` — each subscriber's
outcome (normal or exception) is collected, and the dispatch itself returns
normally with the updated subscribers and the result list. -/
def dispatch (m : SubscriberMap) (e : Event) :
    List Subscriber × List (Except Unit Unit) :=
  let results := (resolve m e).map (fun s => handle_event s e)
  (results.map Prod.fst, results.map Prod.snd)

end NegSpace

namespace NegSpace

/-! ## Theorems: EventBus dedup (claim C7) -/

/-- Claim C7: publishing a valid event on a fresh bus with room in the queue
succeeds, and publishing a second valid event carrying the same `event_id`
is rejected as a duplicate: exactly one successful publish
(`published == 1`, the queue holds exactly the first event) and one
duplicate rejection (`duplicated == 1`, nothing new enqueued). -/
theorem publish_dedup (mq : ℕ) (e e' : Event) (hmq : 1 ≤ mq)
    (hv : e.validate = true) (hv' : e'.validate = true)
    (hid : e'.event_id = e.event_id) :
    (publish (BusState.init mq) e).1 = PublishResult.published ∧
      (publish (BusState.init mq) e).2.published_count = 1 ∧
      (publish (BusState.init mq) e).2.queue = [e] ∧
      (publish ((publish (BusState.init mq) e).2) e').1 =
        PublishResult.duplicate ∧
      (publish ((publish (BusState.init mq) e).2) e').2.duplicated_count = 1 ∧
      (publish ((publish (BusState.init mq) e).2) e').2.published_count = 1 ∧
      (publish ((publish (BusState.init mq) e).2) e').2.queue = [e] := by
  have hfull : (BusState.queue_full
      { BusState.init mq with seen_event_ids := [e.event_id] }) = false := by
    simp [BusState.queue_full, BusState.init]
    omega
  have h1 : publish (BusState.init mq) e =
      (PublishResult.published,
        { max_queue_size := mq, queue := [e], seen_event_ids := [e.event_id],
          published_count := 1, duplicated_count := 0, failed_count := 0 }) := by
    unfold publish
    rw [if_neg (by simp [hv]), if_neg (by simp [BusState.init])]
    simp only [BusState.init] at hfull ⊢
    rw [if_neg (by simp [hfull])]
    rfl
  rw [h1]
  refine ⟨rfl, rfl, rfl, ?_, ?_, ?_, ?_⟩ <;>
    · unfold publish
      rw [if_neg (by simp [hv']), if_pos (by simp [hid])]

/-- Witness for C7 with two concrete events sharing an id. -/
theorem publish_dedup_witness :
    (publish (BusState.init 10) ⟨"id1", "t", "s", true, true⟩).1 =
        PublishResult.published ∧
      (publish (BusState.init 10) ⟨"id1", "t", "s", true, true⟩).2.published_count = 1 ∧
      (publish (BusState.init 10) ⟨"id1", "t", "s", true, true⟩).2.queue =
        [⟨"id1", "t", "s", true, true⟩] ∧
      (publish ((publish (BusState.init 10) ⟨"id1", "t", "s", true, true⟩).2)
          ⟨"id1", "u", "v", true, true⟩).1 = PublishResult.duplicate ∧
      (publish ((publish (BusState.init 10) ⟨"id1", "t", "s", true, true⟩).2)
          ⟨"id1", "u", "v", true, true⟩).2.duplicated_count = 1 ∧
      (publish ((publish (BusState.init 10) ⟨"id1", "t", "s", true, true⟩).2)
          ⟨"id1", "u", "v", true, true⟩).2.published_count = 1 ∧
      (publish ((publish (BusState.init 10) ⟨"id1", "t", "s", true, true⟩).2)
          ⟨"id1", "u", "v", true, true⟩).2.queue =
        [⟨"id1", "t", "s", true, true⟩] :=
  publish_dedup 10 ⟨"id1", "t", "s", true, true⟩ ⟨"id1", "u", "v", true, true⟩
    (by decide) (by decide) (by decide) rfl

/-! ## Theorems: publish on a full queue poisons the id (claim C10) -/

/-- Claim C10: publishing a valid, previously unseen event into a full queue
adds its id to the seen set before the enqueue attempt; the attempt raises,
the failure counter is incremented, the queue is unchanged — and the id
stays in the seen set, so every later publish of an event with that id is
rejected as a duplicate (incrementing `duplicated`), never enqueued. -/
theorem publish_queue_full_poisons_id (st : BusState) (e : Event)
    (hv : e.validate = true) (hfresh : e.event_id ∉ st.seen_event_ids)
    (hpos : 0 < st.max_queue_size)
    (hfull : st.max_queue_size ≤ st.queue.length) :
    (publish st e).1 = PublishResult.queue_full_raised ∧
      (publish st e).2.seen_event_ids = e.event_id :: st.seen_event_ids ∧
      (publish st e).2.queue = st.queue ∧
      (publish st e).2.failed_count = st.failed_count + 1 ∧
      (∀ e2 : Event, e2.validate = true → e2.event_id = e.event_id →
        (publish (publish st e).2 e2).1 = PublishResult.duplicate ∧
          (publish (publish st e).2 e2).2.queue = st.queue ∧
          (publish (publish st e).2 e2).2.duplicated_count =
            st.duplicated_count + 1) := by
  have h1 : publish st e =
      (PublishResult.queue_full_raised,
        { st with seen_event_ids := e.event_id :: st.seen_event_ids,
                  failed_count := st.failed_count + 1 }) := by
    unfold publish
    rw [if_neg (by simp [hv]), if_neg (by simpa using hfresh)]
    rw [if_pos (by simp [BusState.queue_full]; omega)]
  rw [h1]
  refine ⟨rfl, rfl, rfl, rfl, ?_⟩
  intro e2 hv2 hid2
  unfold publish
  rw [if_neg (by simp [hv2]), if_pos (by simp [hid2])]
  exact ⟨rfl, rfl, rfl⟩

/-- Witness for C10: a bus with capacity 1 whose queue already holds one
event; the second fresh event raises `QueueFull` yet is remembered, and a
retry of the same event is counted as a duplicate. -/
theorem publish_queue_full_poisons_id_witness :
    (publish ⟨1, [⟨"a", "t", "s", true, true⟩], ["a"], 1, 0, 0⟩
        ⟨"b", "t", "s", true, true⟩).1 = PublishResult.queue_full_raised ∧
      (publish ⟨1, [⟨"a", "t", "s", true, true⟩], ["a"], 1, 0, 0⟩
          ⟨"b", "t", "s", true, true⟩).2.seen_event_ids = ["b", "a"] ∧
      (publish (publish ⟨1, [⟨"a", "t", "s", true, true⟩], ["a"], 1, 0, 0⟩
            ⟨"b", "t", "s", true, true⟩).2
          ⟨"b", "t", "s", true, true⟩).1 = PublishResult.duplicate := by
  have h := publish_queue_full_poisons_id
    ⟨1, [⟨"a", "t", "s", true, true⟩], ["a"], 1, 0, 0⟩
    ⟨"b", "t", "s", true, true⟩ (by decide) (by decide) (by decide) (by decide)
  exact ⟨h.1, h.2.1, (h.2.2.2.2 ⟨"b", "t", "s", true, true⟩ (by decide) rfl).1⟩

/-! ## Theorems: dispatch fan-out isolation (claim C8) -/

/-- Claim C8: when some resolved subscriber's `handle_event` raises, the
dispatch still invokes every subscriber — every result is collected
(`return_exceptions=True`), every non-throwing subscriber records the event
— and the dispatch call itself returns normally (it is a total function
whose error results are data, not a raised exception). -/
theorem dispatch_fanout_isolation (m : SubscriberMap) (e : Event)
    (hthrows : ∃ s ∈ resolve m e, s.throws_on e = true) :
    (dispatch m e).2.length = (resolve m e).length ∧
      (dispatch m e).1 = (resolve m e).map
        (fun s => if s.throws_on e then s
                  else { s with handled := s.handled ++ [e] }) ∧
      (dispatch m e).2 = (resolve m e).map
        (fun s => if s.throws_on e then Except.error ()
                  else Except.ok ()) := by
  obtain ⟨s₀, -, -⟩ := hthrows
  unfold dispatch
  refine ⟨by simp, ?_, ?_⟩ <;>
    · simp only [List.map_map]
      refine List.map_congr_left fun s _ => ?_
      by_cases h : s.throws_on e = true <;>
        simp [handle_event, h]

/-- Witness for C8: two subscribers to type `"t"` where the first throws on
the event; the second still handles it and both outcomes are collected. -/
theorem dispatch_fanout_isolation_witness :
    (dispatch ⟨[("t", [⟨[], fun _ => true⟩, ⟨[], fun _ => false⟩])], []⟩
        ⟨"i", "t", "s", true, true⟩).2.length = 2 ∧
      (dispatch ⟨[("t", [⟨[], fun _ => true⟩, ⟨[], fun _ => false⟩])], []⟩
          ⟨"i", "t", "s", true, true⟩).1 =
        [⟨[], fun _ => true⟩,
          ⟨[⟨"i", "t", "s", true, true⟩], fun _ => false⟩] ∧
      (dispatch ⟨[("t", [⟨[], fun _ => true⟩, ⟨[], fun _ => false⟩])], []⟩
          ⟨"i", "t", "s", true, true⟩).2 = [Except.error (), Except.ok ()] := by
  have h := dispatch_fanout_isolation
    ⟨[("t", [⟨[], fun _ => true⟩, ⟨[], fun _ => false⟩])], []⟩
    ⟨"i", "t", "s", true, true⟩
    ⟨⟨[], fun _ => true⟩, by simp [resolve], rfl⟩
  refine ⟨h.1.trans (by simp [resolve]), h.2.1.trans ?_, h.2.2.trans ?_⟩ <;>
    simp [resolve]

/-! ## StreamProcessor (`processors/streaming.py`)

Timestamps are whole seconds since an epoch (`ℤ`); the window map
`self._windows` is an insertion-ordered association list from window id to
element list.  Window ids (Python uses `isoformat()` strings) are the
start/creation timestamps themselves. -/

/-- `datetime.replace(second=0, microsecond=0)`: truncate to the minute. -/
def minute_floor (ts : ℤ) : ℤ := ts - ts % 60

/-- `datetime.second`: the second-of-minute component. -/
def second_of_minute (ts : ℤ) : ℤ := ts % 60

/-- The window start `_route_tumbling` computes:
`ts.replace(second=0, microsecond=0)
  - timedelta(seconds=ts.second % window_size_seconds)`. -/
def code_window_start (window_size_seconds : ℤ) (ts : ℤ) : ℤ :=
  minute_floor ts - second_of_minute ts % window_size_seconds

/-- The bucket start the spec prescribes: `floor(ts / size) * size`. -/
def floor_bucket_start (size ts : ℤ) : ℤ := size * (ts / size)

/-- The window map: id together with the elements routed to it, in creation
order (Python 3.7+ `dict` preserves insertion order). -/
abbrev Windows := List (ℤ × List ℤ)

/-- Appending an element to an existing window's list
(`self._windows[window_id].append(element)`). -/
def append_to_window (ws : Windows) (wid : ℤ) (ts : ℤ) : Windows :=
  ws.map (fun p => if p.1 = wid then (p.1, p.2 ++ [ts]) else p)

/-- `dict` assignment `self._windows[wid] = v`: overwrite in place when the
key exists, otherwise append a new entry. -/
def dict_set (ws : Windows) (wid : ℤ) (v : List ℤ) : Windows :=
  if ws.any (fun p => p.1 = wid) then
    ws.map (fun p => if p.1 = wid then (wid, v) else p)
  else
    ws ++ [(wid, v)]

/-- `StreamProcessor._route_tumbling`: compute the element's window id, add
the element (creating the window if needed), then — if the element's own
timestamp has reached that window's end — pop the window and emit it. -/
def route_tumbling (size : ℤ) (ws : Windows) (ts : ℤ) :
    Windows × Option (List ℤ) :=
  let wid := code_window_start size ts
  let ws1 :=
    if ws.any (fun p => p.1 = wid) then append_to_window ws wid ts
    else append_to_window (dict_set ws wid []) wid ts
  if wid + size ≤ ts then
    (ws1.filter (fun p => p.1 ≠ wid),
      some (((ws1.find? (fun p => p.1 = wid)).map Prod.snd).getD []))
  else (ws1, none)

/-- Route a whole stream of timestamps through the tumbling router,
collecting the emitted windows in order. -/
def process_tumbling (size : ℤ) (tss : List ℤ) : Windows × List (List ℤ) :=
  tss.foldl
    (fun acc ts =>
      let r := route_tumbling size acc.1 ts
      (r.1, acc.2 ++ r.2.toList))
    ([], [])

/-- The matching test of `_route_session` on one window's element list:
skip empty windows, otherwise compare the element's timestamp against the
window's last element:
`(now - last_element_time).total_seconds() < inactivity_timeout_seconds`. -/
def session_active (timeout ts : ℤ) (es : List ℤ) : Bool :=
  match es.getLast? with
  | none => false
  | some l => decide (ts - l < timeout)

/-- The `for window_id, elements in self._windows.items(): ... break` scan:
the first window in insertion order whose last element is within the
timeout. -/
def find_active_session (timeout ts : ℤ) : Windows → Option ℤ
  | [] => none
  | (wid, es) :: rest =>
      if session_active timeout ts es then some wid
      else find_active_session timeout ts rest

/-- `StreamProcessor._route_session`: join the found session, or create a
new one keyed by the element's timestamp (set to `[]`, then append). -/
def route_session (timeout : ℤ) (ws : Windows) (ts : ℤ) : Windows :=
  match find_active_session timeout ts ws with
  | some wid => append_to_window ws wid ts
  | none => append_to_window (dict_set ws ts []) ts ts

/-- Route a whole stream of timestamps through the session router. -/
def process_session (timeout : ℤ) (tss : List ℤ) : Windows :=
  tss.foldl (route_session timeout) []

end NegSpace

namespace NegSpace

/-! ## Theorems: tumbling-window routing (claim C1) -/

/-- Claim C1 is violated by the code (`code_bug`).  The routing zeroes the
second-of-minute *before* subtracting `second % window_size_seconds`, so
with `window_size_seconds = 60` the element at `t = 61` (00:01:01) is
assigned the window starting at 59 (00:00:59) instead of its fixed time
bucket starting at 60 (00:01:00); every element with a non-zero second lands
in a bucket that does not contain its minute.  Consequently, for ten
elements one second apart from `t0 = 0` followed by the element at
`t0 + 60`, no window is ever emitted — each element sits in its own window
`minute_start - second` — whereas the claim requires the first emission at
`t0 + 60` carrying exactly the elements of `[t0, t0 + 60)`. -/
theorem route_tumbling_wrong_bucket_and_no_emission :
    code_window_start 60 61 = 59 ∧
      floor_bucket_start 60 61 = 60 ∧
      (59 : ℤ) ≠ 60 ∧
      code_window_start 60 1 = -1 ∧
      floor_bucket_start 60 1 = 0 ∧
      (process_tumbling 60 [0, 1, 2, 3, 4, 5, 6, 7, 8, 9, 60]).2 = [] ∧
      (process_tumbling 60 [0, 1, 2, 3, 4, 5, 6, 7, 8, 9, 60]).1 =
        [(0, [0]), (-1, [1]), (-2, [2]), (-3, [3]), (-4, [4]), (-5, [5]),
          (-6, [6]), (-7, [7]), (-8, [8]), (-9, [9]), (60, [60])] := by
  refine ⟨by decide, by decide, by decide, by decide, by decide, ?_, ?_⟩ <;> decide

/-! ## Theorems: session-window routing (claim C5) -/

/-- Counterexample to claim C5 as stated: with `inactivity_timeout = 300`
and elements at 0, 400, 250, the element at 250 is within the timeout of
both active windows (the one with last element 0 and the one with last
element 400, since `|250 - 400| = 150 < 300`), but the code appends it to
the window created first (last element 0), not to the most recent matching
window (last element 400 > 0). -/
theorem route_session_not_most_recent :
    process_session 300 [0, 400, 250] = [(0, [0, 250]), (400, [400])] ∧
      |(250 : ℤ) - 400| < 300 ∧
      |(250 : ℤ) - 0| < 300 ∧
      (0 : ℤ) < 400 := by
  refine ⟨?_, by decide, by decide, by decide⟩
  decide

/-- Claim C5 amended: an incoming element joins the *first window in
creation order* whose last element is within the inactivity timeout of the
element's timestamp (in the code's signed sense `ts - last < timeout`);
when no active window matches, a new session keyed by the element's
timestamp is created containing only that element (overwriting any existing
window with that key).  This characterises `_route_session` through
`List.find?` over the insertion-ordered window map. -/
theorem route_session_first_match (timeout ts : ℤ) (ws : Windows) :
    route_session timeout ws ts =
      match ws.find? (fun p => session_active timeout ts p.2) with
      | some p => append_to_window ws p.1 ts
      | none =>
          if ws.any (fun p => p.1 = ts) then
            ws.map (fun p => if p.1 = ts then (ts, [ts]) else p)
          else
            ws ++ [(ts, [ts])]
      := by
  have hfind : find_active_session timeout ts ws =
      (ws.find? (fun p => session_active timeout ts p.2)).map Prod.fst := by
    induction ws with
    | nil => rfl
    | cons p rest ih =>
        rcases p with ⟨wid, es⟩
        by_cases h : session_active timeout ts es
        · simp [find_active_session, List.find?, h]
        · simp only [find_active_session, List.find?, h, if_neg,
            Bool.false_eq_true, not_false_iff, if_false]
          simpa [h] using ih
  unfold route_session
  rw [hfind]
  cases hf : ws.find? (fun p => session_active timeout ts p.2) with
  | some p => rfl
  | none =>
      show append_to_window (dict_set ws ts []) ts ts = _
      unfold dict_set
      by_cases hmem : ws.any (fun p => p.1 = ts)
      · rw [if_pos hmem, if_pos hmem]
        unfold append_to_window
        rw [List.map_map]
        refine List.map_congr_left fun q _ => ?_
        by_cases hq : q.1 = ts <;> simp [hq]
      · rw [if_neg hmem, if_neg hmem]
        unfold append_to_window
        rw [List.map_append]
        have hrest : ws.map (fun p => if p.1 = ts then (p.1, p.2 ++ [ts]) else p)
            = ws := by
          have hid : ws.map (fun p => if p.1 = ts then (p.1, p.2 ++ [ts]) else p)
              = ws.map id := by
            refine List.map_congr_left fun q hq => ?_
            have hne : ¬ q.1 = ts := by
              intro hcontra
              exact hmem (List.any_eq_true.mpr ⟨q, hq, by simp [hcontra]⟩)
            simp [hne]
          simpa using hid
        rw [hrest]
        simp

/-- Witness for the amended C5 on the counterexample stream's final step:
the element at 250 joins the first-created matching window. -/
theorem route_session_first_match_witness :
    route_session 300 [(0, [0]), (400, [400])] 250 =
      [(0, [0, 250]), (400, [400])] := by
  have h := route_session_first_match 300 250 [(0, [0]), (400, [400])]
  rw [h]
  decide

/-! ## AnomalyDetector, IQR method (`algorithms/anomaly_detection.py`)

Float arithmetic is embedded exactly over `ℚ` (the literals `0.1`, `0.4`,
`0.7`, `1.5` become the corresponding rationals). -/

/-- Python's `sorted` on the value list. -/
def py_sorted (values : List ℚ) : List ℚ := values.insertionSort (· ≤ ·)

/-- `q1 = values[n // 4]` on the sorted list. -/
def py_q1 (values : List ℚ) : ℚ :=
  (py_sorted values).getD ((py_sorted values).length / 4) 0

/-- `q3 = values[3 * n // 4]` on the sorted list. -/
def py_q3 (values : List ℚ) : ℚ :=
  (py_sorted values).getD (3 * (py_sorted values).length / 4) 0

def py_iqr (values : List ℚ) : ℚ := py_q3 values - py_q1 values

/-- `lower_bound = q1 - iqr_multiplier * iqr`. -/
def iqr_lower_bound (m : ℚ) (values : List ℚ) : ℚ :=
  py_q1 values - m * py_iqr values

/-- `upper_bound = q3 + iqr_multiplier * iqr`. -/
def iqr_upper_bound (m : ℚ) (values : List ℚ) : ℚ :=
  py_q3 values + m * py_iqr values

/-- The code's distance: from the lower bound when the value is below it,
otherwise from the upper bound. -/
def iqr_distance (m : ℚ) (values : List ℚ) (v : ℚ) : ℚ :=
  if v < iqr_lower_bound m values then |v - iqr_lower_bound m values|
  else |v - iqr_upper_bound m values|

/-- `min(distance / max(iqr or 1, 0.1) / 5.0, 1.0)`: Python's `iqr or 1`
replaces a zero (falsy) IQR by 1 before the `max` with `0.1`. -/
def iqr_code_score (m : ℚ) (values : List ℚ) (v : ℚ) : ℚ :=
  min (iqr_distance m values v /
        max (if py_iqr values = 0 then 1 else py_iqr values) (1 / 10) / 5) 1

/-- Severity tiers of the IQR detector, on the anomaly score. -/
def iqr_severity (score : ℚ) : String :=
  if 7 / 10 < score then "high" else if 2 / 5 < score then "medium" else "low"

structure IqrAnomaly where
  value : ℚ
  anomaly_score : ℚ
  severity : String
  deriving Repr, DecidableEq

/-- `AnomalyDetector.detect_iqr_anomalies` restricted to the value series:
fewer than 4 points yield no anomalies; otherwise every value strictly
outside `[lower_bound, upper_bound]` is flagged with the code's score and
severity. -/
def detect_iqr_anomalies (m : ℚ) (values : List ℚ) : List IqrAnomaly :=
  if values.length < 4 then []
  else
    values.filterMap (fun v =>
      if v < iqr_lower_bound m values ∨ iqr_upper_bound m values < v then
        some ⟨v, iqr_code_score m values v,
          iqr_severity (iqr_code_score m values v)⟩
      else none)

/-- The score claimed by the spec: denominator `max(IQR, 0.1)` with no
special case for a zero IQR. -/
def iqr_claim_score (m : ℚ) (values : List ℚ) (v : ℚ) : ℚ :=
  min (iqr_distance m values v / max (py_iqr values) (1 / 10) / 5) 1

/-- The amended score: the spec's formula with Python's `iqr or 1`
substitution made explicit, and the distance taken to the nearest bound. -/
def iqr_amended_score (m : ℚ) (values : List ℚ) (v : ℚ) : ℚ :=
  min (min |v - iqr_lower_bound m values| |v - iqr_upper_bound m values| /
        max (if py_iqr values = 0 then 1 else py_iqr values) (1 / 10) / 5) 1

end NegSpace

namespace NegSpace

/-! ## Theorems: IQR anomaly score (claim C9) -/

/-- Counterexample to claim C9 as stated: for `[5, 5, 5, 5, 6]` with the
default multiplier 1.5 the quartiles are `Q1 = Q3 = 5`, so `IQR = 0` and the
value 6 lies outside `[5, 5]` at distance 1.  The claim's formula
`min(1 / max(0, 0.1) / 5, 1) = 1`, but the code computes
`min(1 / max(0 or 1, 0.1) / 5, 1) = 1/5` — the zero IQR is replaced by 1,
not by 0.1. -/
theorem detect_iqr_zero_iqr_score :
    detect_iqr_anomalies (3 / 2) [5, 5, 5, 5, 6] = [⟨6, 1 / 5, "low"⟩] ∧
      iqr_claim_score (3 / 2) [5, 5, 5, 5, 6] 6 = 1 ∧
      ((1 : ℚ) / 5) ≠ 1 := by
  have hq1 : py_q1 [5, 5, 5, 5, 6] = 5 := by
    norm_num [py_q1, py_sorted, List.insertionSort, List.orderedInsert]
  have hq3 : py_q3 [5, 5, 5, 5, 6] = 5 := by
    norm_num [py_q3, py_sorted, List.insertionSort, List.orderedInsert]
  have hiqr : py_iqr [5, 5, 5, 5, 6] = 0 := by
    rw [py_iqr, hq1, hq3]
    ring
  have hlo : iqr_lower_bound (3 / 2) [5, 5, 5, 5, 6] = 5 := by
    rw [iqr_lower_bound, hq1, hiqr]
    ring
  have hhi : iqr_upper_bound (3 / 2) [5, 5, 5, 5, 6] = 5 := by
    rw [iqr_upper_bound, hq3, hiqr]
    ring
  refine ⟨?_, ?_, by norm_num⟩
  · norm_num [detect_iqr_anomalies, iqr_code_score, iqr_distance,
      iqr_severity, hlo, hhi, hiqr, List.filterMap_cons, abs_of_nonneg]
  · norm_num [iqr_claim_score, iqr_distance, hlo, hhi, hiqr, abs_of_nonneg]

/-- Helper: the sorted list is monotone in its indices, so `Q1 ≤ Q3`. -/
theorem py_q1_le_py_q3 (values : List ℚ) (h4 : 4 ≤ values.length) :
    py_q1 values ≤ py_q3 values := by
  unfold py_q1 py_q3
  set s := py_sorted values with hs
  have hlen : s.length = values.length :=
    List.length_insertionSort (· ≤ ·) values
  have hsorted : s.Sorted (· ≤ ·) := by
    simpa [hs, py_sorted] using List.sorted_insertionSort (· ≤ ·) values
  have hq1lt : s.length / 4 < s.length := by omega
  have hq3lt : 3 * s.length / 4 < s.length := by omega
  have hle : s.length / 4 ≤ 3 * s.length / 4 := by omega
  rw [List.getD_eq_getElem s 0 hq1lt, List.getD_eq_getElem s 0 hq3lt]
  rcases Nat.eq_or_lt_of_le hle with heq | hlt
  · simp [heq]
  · exact List.pairwise_iff_getElem.mp hsorted _ _ hq1lt hq3lt hlt

/-- Claim C9 amended: for every series of at least 4 points and non-negative
multiplier, the detector flags exactly the values strictly outside
`[Q1 - m·IQR, Q3 + m·IQR]` (quartiles at `n//4` and `3n//4` of the sorted
list), each with score
`min(distance_from_nearest_bound / max((IQR if IQR ≠ 0 else 1), 0.1) / 5, 1)`
— when the IQR is zero the denominator is 1, not 0.1. -/
theorem detect_iqr_flags_and_scores (m : ℚ) (values : List ℚ)
    (h4 : 4 ≤ values.length) (hm : 0 ≤ m) :
    detect_iqr_anomalies m values =
      (values.filter fun v =>
          decide (v < iqr_lower_bound m values ∨
            iqr_upper_bound m values < v)).map
        (fun v => ⟨v, iqr_amended_score m values v,
          iqr_severity (iqr_amended_score m values v)⟩) := by
  have hbounds : iqr_lower_bound m values ≤ iqr_upper_bound m values := by
    have hq := py_q1_le_py_q3 values h4
    have hiqr : 0 ≤ py_iqr values := by
      unfold py_iqr
      linarith
    unfold iqr_lower_bound iqr_upper_bound
    nlinarith
  have hscore : ∀ v : ℚ,
      (v < iqr_lower_bound m values ∨ iqr_upper_bound m values < v) →
      iqr_code_score m values v = iqr_amended_score m values v := by
    intro v hv
    have hdist : iqr_distance m values v =
        min |v - iqr_lower_bound m values| |v - iqr_upper_bound m values| := by
      unfold iqr_distance
      rcases hv with hlo | hhi
      · rw [if_pos hlo]
        have h1 : |v - iqr_lower_bound m values| = iqr_lower_bound m values - v := by
          rw [abs_of_nonpos (by linarith)]
          ring
        have h2 : |v - iqr_upper_bound m values| = iqr_upper_bound m values - v := by
          rw [abs_of_nonpos (by linarith)]
          ring
        rw [h1, h2, min_eq_left (by linarith)]
      · have hnlo : ¬ v < iqr_lower_bound m values := by linarith
        rw [if_neg hnlo]
        have h1 : |v - iqr_lower_bound m values| = v - iqr_lower_bound m values := by
          rw [abs_of_nonneg (by linarith)]
        have h2 : |v - iqr_upper_bound m values| = v - iqr_upper_bound m values := by
          rw [abs_of_nonneg (by linarith)]
        rw [h1, h2, min_eq_right (by linarith)]
    unfold iqr_code_score iqr_amended_score
    rw [hdist]
  unfold detect_iqr_anomalies
  rw [if_neg (by omega)]
  have hgen : ∀ l : List ℚ,
      (l.filterMap fun v =>
        if v < iqr_lower_bound m values ∨ iqr_upper_bound m values < v then
          some (⟨v, iqr_code_score m values v,
            iqr_severity (iqr_code_score m values v)⟩ : IqrAnomaly)
        else none) =
      (l.filter fun v =>
          decide (v < iqr_lower_bound m values ∨
            iqr_upper_bound m values < v)).map
        (fun v => ⟨v, iqr_amended_score m values v,
          iqr_severity (iqr_amended_score m values v)⟩) := by
    intro l
    induction l with
    | nil => rfl
    | cons a t ih =>
        by_cases h : a < iqr_lower_bound m values ∨ iqr_upper_bound m values < a
        · simp [h, ih, hscore a h]
        · simp [h, ih]
  exact hgen values

/-- Witness for the amended C9 on the zero-IQR example. -/
theorem detect_iqr_flags_and_scores_witness :
    detect_iqr_anomalies (3 / 2) [5, 5, 5, 5, 6] =
      ([5, 5, 5, 5, 6].filter fun v =>
          decide (v < iqr_lower_bound (3 / 2) [5, 5, 5, 5, 6] ∨
            iqr_upper_bound (3 / 2) [5, 5, 5, 5, 6] < v)).map
        (fun v => ⟨v, iqr_amended_score (3 / 2) [5, 5, 5, 5, 6] v,
          iqr_severity (iqr_amended_score (3 / 2) [5, 5, 5, 5, 6] v)⟩) :=
  detect_iqr_flags_and_scores (3 / 2) [5, 5, 5, 5, 6] (by norm_num) (by norm_num)

/-! ## AnomalyDetector, Z-score method (`algorithms/anomaly_detection.py`)

The z-score detector computes `math.sqrt`, so this part of the embedding
lives in `ℝ` (exact real arithmetic standing in for floats); the
definitions are necessarily noncomputable and concrete evaluations are
proved with `norm_num`/`nlinarith` instead of `decide`. -/

noncomputable def py_mean (values : List ℝ) : ℝ := values.sum / values.length

/-- `variance = sum((x - mean) ** 2 for x in values) / len(values)`. -/
noncomputable def py_variance (values : List ℝ) : ℝ :=
  (values.map fun x => (x - py_mean values) ^ 2).sum / values.length

/-- `stddev = math.sqrt(variance)`. -/
noncomputable def py_stddev (values : List ℝ) : ℝ :=
  Real.sqrt (py_variance values)

/-- `z_score = abs((metric.value - mean) / stddev)`. -/
noncomputable def z_score (values : List ℝ) (x : ℝ) : ℝ :=
  |(x - py_mean values) / py_stddev values|

/-- The signed z of the spec's wording (`|z| > threshold` is then the
flagging test); the code's `z_score` is its absolute value. -/
noncomputable def claim_z (values : List ℝ) (x : ℝ) : ℝ :=
  (x - py_mean values) / py_stddev values

/-- Severity tiers of the z-score detector. -/
noncomputable def z_severity (z : ℝ) : String :=
  if 4 < z then "high" else if 3 < z then "medium" else "low"

structure ZscoreAnomaly where
  value : ℝ
  anomaly_score : ℝ
  severity : String

/-- `AnomalyDetector.detect_zscore_anomalies` restricted to the value
series: fewer than 3 points or a zero standard deviation yield no
anomalies; otherwise every value with `z_score > threshold` is flagged with
score `min(z_score / 5.0, 1.0)` and the tiered severity. -/
noncomputable def detect_zscore_anomalies (threshold : ℝ) (values : List ℝ) :
    List ZscoreAnomaly :=
  if values.length < 3 then []
  else if py_stddev values = 0 then []
  else
    values.filterMap fun v =>
      if threshold < z_score values v then
        some ⟨v, min (z_score values v / 5) 1, z_severity (z_score values v)⟩
      else none

end NegSpace

namespace NegSpace

/-! ## Theorems: z-score anomaly detection (claim C2)

Shared evaluation of the detector on the spec's series
`[10, 12, 11, 13, 9, 100]`: the mean is `155/6`, the population variance is
`39665/36`, and the z-score of 100 is `445 / √39665 ≈ 2.234`. -/

theorem zdemo_mean : py_mean [10, 12, 11, 13, 9, 100] = 155 / 6 := by
  norm_num [py_mean]

theorem zdemo_variance :
    py_variance [10, 12, 11, 13, 9, 100] = 39665 / 36 := by
  unfold py_variance
  simp only [zdemo_mean]
  norm_num

theorem zdemo_stddev_pos : 0 < py_stddev [10, 12, 11, 13, 9, 100] := by
  rw [py_stddev, zdemo_variance]
  exact Real.sqrt_pos.mpr (by norm_num)

theorem zdemo_stddev_sq :
    py_stddev [10, 12, 11, 13, 9, 100] ^ 2 = 39665 / 36 := by
  rw [py_stddev, zdemo_variance]
  exact Real.sq_sqrt (by norm_num)

theorem zdemo_z_abs (x : ℝ) :
    z_score [10, 12, 11, 13, 9, 100] x =
      |x - 155 / 6| / py_stddev [10, 12, 11, 13, 9, 100] := by
  rw [z_score, zdemo_mean, abs_div, abs_of_pos zdemo_stddev_pos]

/-- The five baseline values all have `z ≤ 2` (largest deviation `101/6`). -/
theorem zdemo_small_z (x : ℝ) (habs : |x - 155 / 6| ≤ 101 / 6) :
    ¬ (2 < z_score [10, 12, 11, 13, 9, 100] x) := by
  rw [zdemo_z_abs, not_lt, div_le_iff₀ zdemo_stddev_pos]
  have hs2 := zdemo_stddev_sq
  have hs0 := zdemo_stddev_pos
  nlinarith [abs_nonneg (x - 155 / 6)]

theorem zdemo_z100_gt_two :
    2 < z_score [10, 12, 11, 13, 9, 100] 100 := by
  rw [zdemo_z_abs, lt_div_iff₀ zdemo_stddev_pos,
    show |(100 : ℝ) - 155 / 6| = 445 / 6 by rw [abs_of_pos] <;> norm_num]
  have hs2 := zdemo_stddev_sq
  have hs0 := zdemo_stddev_pos
  nlinarith [sq_nonneg (py_stddev [10, 12, 11, 13, 9, 100] - 223 / 6)]

theorem zdemo_z100_le_three :
    z_score [10, 12, 11, 13, 9, 100] 100 ≤ 3 := by
  rw [zdemo_z_abs, div_le_iff₀ zdemo_stddev_pos,
    show |(100 : ℝ) - 155 / 6| = 445 / 6 by rw [abs_of_pos] <;> norm_num]
  have hs2 := zdemo_stddev_sq
  have hs0 := zdemo_stddev_pos
  nlinarith [sq_nonneg (py_stddev [10, 12, 11, 13, 9, 100] - 445 / 18)]

/-- Evaluation of the detector on the spec's series: exactly the value 100
is flagged, with severity `"low"`. -/
theorem detect_zscore_demo_eval :
    detect_zscore_anomalies 2 [10, 12, 11, 13, 9, 100] =
      [⟨100, min (z_score [10, 12, 11, 13, 9, 100] 100 / 5) 1, "low"⟩] := by
  have h10 : ¬ (2 < z_score [10, 12, 11, 13, 9, 100] 10) :=
    zdemo_small_z 10 (by rw [abs_of_nonpos] <;> norm_num)
  have h12 : ¬ (2 < z_score [10, 12, 11, 13, 9, 100] 12) :=
    zdemo_small_z 12 (by rw [abs_of_nonpos] <;> norm_num)
  have h11 : ¬ (2 < z_score [10, 12, 11, 13, 9, 100] 11) :=
    zdemo_small_z 11 (by rw [abs_of_nonpos] <;> norm_num)
  have h13 : ¬ (2 < z_score [10, 12, 11, 13, 9, 100] 13) :=
    zdemo_small_z 13 (by rw [abs_of_nonpos] <;> norm_num)
  have h9 : ¬ (2 < z_score [10, 12, 11, 13, 9, 100] 9) :=
    zdemo_small_z 9 (by rw [abs_of_nonpos] <;> norm_num)
  have h100 := zdemo_z100_gt_two
  have h3 : ¬ (3 < z_score [10, 12, 11, 13, 9, 100] 100) :=
    not_lt.mpr zdemo_z100_le_three
  have h4 : ¬ (4 < z_score [10, 12, 11, 13, 9, 100] 100) := by
    intro h
    exact h3 (lt_trans (by norm_num) h)
  unfold detect_zscore_anomalies
  rw [if_neg (by norm_num), if_neg (ne_of_gt zdemo_stddev_pos)]
  simp only [List.filterMap_cons, List.filterMap_nil, h10, h12, h11, h13, h9,
    h100, if_true, if_false, ite_true, ite_false]
  rw [z_severity, if_neg h4, if_neg h3]

/-- Counterexample to claim C2 as stated: on `[10, 12, 11, 13, 9, 100]`
with threshold 2.0 the value 100 is indeed the only flagged point, but its
z-score is `445/√39665 ≈ 2.23`, which does not exceed 4 (it does not even
exceed 3), so its severity is `"low"`, not `"high"`. -/
theorem zscore_demo_severity_not_high :
    detect_zscore_anomalies 2 [10, 12, 11, 13, 9, 100] =
        [⟨100, min (z_score [10, 12, 11, 13, 9, 100] 100 / 5) 1, "low"⟩] ∧
      ¬ (4 < z_score [10, 12, 11, 13, 9, 100] 100) ∧
      ("low" : String) ≠ "high" := by
  refine ⟨detect_zscore_demo_eval, ?_, by decide⟩
  intro h
  exact not_lt.mpr zdemo_z100_le_three (lt_trans (by norm_num) h)

/-- Claim C2 amended: in general, over at least 3 points with a non-zero
population standard deviation, a point is flagged iff `|z| > threshold`
(population mean/stddev over the whole series), with severity `"high"` for
`|z| > 4`, `"medium"` for `|z| > 3`, else `"low"`, and score
`min(|z|/5, 1)`; on the spec's series `[10, 12, 11, 13, 9, 100]` with
threshold 2.0 the value 100 is the only flagged point, with
`2 < z ≤ 3` and severity `"low"` (not `"high"`). -/
theorem detect_zscore_flags_and_scores :
    (∀ (t : ℝ) (values : List ℝ), 3 ≤ values.length →
      py_stddev values ≠ 0 →
      detect_zscore_anomalies t values =
        (values.filter fun v => decide (t < |claim_z values v|)).map
          (fun v => ⟨v, min (|claim_z values v| / 5) 1,
            if 4 < |claim_z values v| then "high"
            else if 3 < |claim_z values v| then "medium" else "low"⟩)) ∧
      detect_zscore_anomalies 2 [10, 12, 11, 13, 9, 100] =
        [⟨100, min (z_score [10, 12, 11, 13, 9, 100] 100 / 5) 1, "low"⟩] ∧
      2 < z_score [10, 12, 11, 13, 9, 100] 100 ∧
      z_score [10, 12, 11, 13, 9, 100] 100 ≤ 3 := by
  refine ⟨?_, detect_zscore_demo_eval, zdemo_z100_gt_two, zdemo_z100_le_three⟩
  intro t values h3 hstd
  unfold detect_zscore_anomalies
  rw [if_neg (by omega), if_neg hstd]
  have hgen : ∀ l : List ℝ,
      (l.filterMap fun v =>
        if t < z_score values v then
          some (⟨v, min (z_score values v / 5) 1,
            z_severity (z_score values v)⟩ : ZscoreAnomaly)
        else none) =
      (l.filter fun v => decide (t < z_score values v)).map
        (fun v => ⟨v, min (z_score values v / 5) 1,
          z_severity (z_score values v)⟩) := by
    intro l
    induction l with
    | nil => rfl
    | cons a tl ih =>
        by_cases h : t < z_score values a
        · simp [h, ih]
        · simp [h, ih]
  exact hgen values

/-- Witness for the amended C2's general rule at the series `[0, 0, 3]`
(mean 1, variance 2, stddev `√2 ≠ 0`) with threshold 2. -/
theorem detect_zscore_flags_and_scores_witness :
    detect_zscore_anomalies 2 [0, 0, 3] =
      ([0, 0, 3].filter fun v => decide (2 < |claim_z [0, 0, 3] v|)).map
        (fun v => ⟨v, min (|claim_z [0, 0, 3] v| / 5) 1,
          if 4 < |claim_z [0, 0, 3] v| then "high"
          else if 3 < |claim_z [0, 0, 3] v| then "medium" else "low"⟩) := by
  have hvar : py_variance [0, 0, 3] = 2 := by
    unfold py_variance
    have hm : py_mean [0, 0, 3] = 1 := by norm_num [py_mean]
    simp only [hm]
    norm_num
  have hstd : py_stddev [0, 0, 3] ≠ 0 := by
    rw [py_stddev, hvar]
    exact ne_of_gt (Real.sqrt_pos.mpr (by norm_num))
  exact detect_zscore_flags_and_scores.1 2 [0, 0, 3] (by norm_num) hstd

end NegSpace
